import Mathlib

/-!
Verification of the session-redis driver (src/session.go).

Shallow embedding conventions:
* Go byte slices and Go strings holding binary data are `List Nat` of byte
  values (each value is below 256 where it matters).
* The remote Redis backend is an explicit `Backend` state; responses that
  depend on the external server (command failures, KEYS replies) are
  supplied by oracle fields of that state.
* Every operation returns its Go result as an `Except`, the backend state
  after the call, and the trace of wire commands it issued.
-/

namespace SessionRedis

/-- ASCII code of the character that the standard base64 alphabet (as used
by the Go standard library encoder invoked in `Write`) assigns to the
sextet `n`. -/
def b64EncChar (n : Nat) : Nat :=
  if n < 26 then 65 + n
  else if n < 52 then 97 + (n - 26)
  else if n < 62 then 48 + (n - 52)
  else if n = 62 then 43
  else 47

/-- Inverse alphabet lookup for decoding: maps the ASCII code of a base64
character back to its sextet, and any other code to `none`. -/
def b64DecChar (n : Nat) : Option Nat :=
  if 65 ≤ n ∧ n ≤ 90 then some (n - 65)
  else if 97 ≤ n ∧ n ≤ 122 then some (n - 97 + 26)
  else if 48 ≤ n ∧ n ≤ 57 then some (n - 48 + 52)
  else if n = 43 then some 62
  else if n = 47 then some 63
  else none

/-- Standard base64 encoding with padding, bytes to ASCII codes of the
encoded text; models the string produced by the Go standard encoder that
`Write` calls.  61 is the ASCII code of the padding character. -/
def b64Encode : List Nat → List Nat
  | [] => []
  | [a] => [b64EncChar (a / 4), b64EncChar (a % 4 * 16), 61, 61]
  | [a, b] => [b64EncChar (a / 4), b64EncChar (a % 4 * 16 + b / 16),
               b64EncChar (b % 16 * 4), 61]
  | a :: b :: c :: rest =>
      b64EncChar (a / 4) :: b64EncChar (a % 4 * 16 + b / 16) ::
      b64EncChar (b % 16 * 4 + c / 64) :: b64EncChar (c % 64) :: b64Encode rest

/-- Standard base64 decoding with padding, ASCII codes back to bytes;
models the decoder that `Read` calls.  `none` models a non-nil decode
error (bad length, bad character, or data after padding); like the Go
decoder in its default mode, non-zero bits under the padding are ignored. -/
def b64Decode : List Nat → Option (List Nat)
  | [] => some []
  | a :: b :: c :: d :: rest =>
      (b64DecChar a).bind fun va =>
      (b64DecChar b).bind fun vb =>
      if c = 61 then
        (if d = 61 ∧ rest = [] then some [va * 4 + vb / 16] else none)
      else
        (b64DecChar c).bind fun vc =>
        if d = 61 then
          (if rest = [] then some [va * 4 + vb / 16, vb % 16 * 16 + vc / 4] else none)
        else
          (b64DecChar d).bind fun vd =>
          (b64Decode rest).bind fun tail =>
          some ((va * 4 + vb / 16) :: (vb % 16 * 16 + vc / 4) :: (vc % 4 * 64 + vd) :: tail)
  | _ => none

theorem optBind_some (a : α) (f : α → Option β) : (some a).bind f = f a := rfl

theorem b64DecChar_encChar {n : Nat} (h : n < 64) :
    b64DecChar (b64EncChar n) = some n := by
  interval_cases n <;> rfl

theorem b64EncChar_ne_61 {n : Nat} (h : n < 64) : b64EncChar n ≠ 61 := by
  interval_cases n <;> decide

/-- Round trip of the codec: decoding an encoded byte sequence restores it
exactly. -/
theorem b64_decode_encode : ∀ (l : List Nat), (∀ x ∈ l, x < 256) →
    b64Decode (b64Encode l) = some l
  | [], _ => rfl
  | [a], h => by
      have ha : a < 256 := h a (by simp)
      have h1 : a / 4 < 64 := by omega
      have h2 : a % 4 * 16 < 64 := by omega
      show b64Decode [b64EncChar (a / 4), b64EncChar (a % 4 * 16), 61, 61] = some [a]
      simp only [b64Decode, b64DecChar_encChar h1, b64DecChar_encChar h2, optBind_some]
      simp
      omega
  | [a, b], h => by
      have ha : a < 256 := h a (by simp)
      have hb : b < 256 := h b (by simp)
      have h1 : a / 4 < 64 := by omega
      have h2 : a % 4 * 16 + b / 16 < 64 := by omega
      have h3 : b % 16 * 4 < 64 := by omega
      show b64Decode [b64EncChar (a / 4), b64EncChar (a % 4 * 16 + b / 16),
                      b64EncChar (b % 16 * 4), 61] = some [a, b]
      simp only [b64Decode, b64DecChar_encChar h1, b64DecChar_encChar h2,
                 b64DecChar_encChar h3, optBind_some]
      simp [b64EncChar_ne_61 h3]
      omega
  | a :: b :: c :: rest, h => by
      have ha : a < 256 := h a (by simp)
      have hb : b < 256 := h b (by simp)
      have hc : c < 256 := h c (by simp)
      have h1 : a / 4 < 64 := by omega
      have h2 : a % 4 * 16 + b / 16 < 64 := by omega
      have h3 : b % 16 * 4 + c / 64 < 64 := by omega
      have h4 : c % 64 < 64 := by omega
      have ih : b64Decode (b64Encode rest) = some rest :=
        b64_decode_encode rest (fun x hx => h x (by simp [hx]))
      show b64Decode (b64EncChar (a / 4) :: b64EncChar (a % 4 * 16 + b / 16) ::
            b64EncChar (b % 16 * 4 + c / 64) :: b64EncChar (c % 64) ::
            b64Encode rest) = some (a :: b :: c :: rest)
      simp only [b64Decode, b64DecChar_encChar h1, b64DecChar_encChar h2,
                 b64DecChar_encChar h3, b64DecChar_encChar h4, optBind_some]
      simp [b64EncChar_ne_61 h3, b64EncChar_ne_61 h4, ih]
      omega

/-- Model of Go strconv.ParseInt applied with base 10 and bit size 64 to
the raw bytes of a Go string: optional sign, then at least one ASCII
digit and nothing else, with the result inside the signed 64-bit range;
`none` models a non-nil parse error. -/
def parseInt64 (bs : List Nat) : Option Int :=
  match bs with
  | [] => none
  | b :: rest =>
    let sd : Bool × List Nat :=
      if b = 45 then (true, rest)
      else if b = 43 then (false, rest)
      else (false, b :: rest)
    if sd.2 = [] then none
    else if sd.2.all (fun d => decide (48 ≤ d ∧ d ≤ 57)) then
      let mag : Nat := sd.2.foldl (fun acc d => acc * 10 + (d - 48)) 0
      let v : Int := if sd.1 then -(mag : Int) else (mag : Int)
      if -(2 ^ 63) ≤ v ∧ v ≤ 2 ^ 63 - 1 then some v else none
    else none

/-- Wrap-around of a mathematical integer into the signed 64-bit range,
modelling overflow of Go int64 addition. -/
def wrap64 (v : Int) : Int := (v + 2 ^ 63) % 2 ^ 64 - 2 ^ 63

/-- Decimal digits (as ASCII codes) of `n`, most significant first; the
first argument is structural fuel, always called with fuel = n so the
definition stays kernel-reducible. -/
def natDigitsCore : Nat → Nat → List Nat
  | _, 0 => []
  | 0, _ + 1 => []
  | fuel + 1, n + 1 => natDigitsCore fuel ((n + 1) / 10) ++ [48 + (n + 1) % 10]

def natDigits (n : Nat) : List Nat := natDigitsCore n n

/-- Model of the Go byte slice obtained from formatting an int64 with fmt
verb %v: the ASCII bytes of its decimal representation. -/
def intToBytes (v : Int) : List Nat :=
  if v < 0 then 45 :: natDigits v.natAbs
  else if v = 0 then [48]
  else natDigits v.natAbs

/-- Value stored in the loosely typed settings map of the host framework
(Go `Any`); `Connect` only inspects the string and int64 cases, every
other dynamic type behaves like `other`. -/
inductive GoVal where
  | str (s : String)
  | int (i : Int)
  | other
deriving DecidableEq

/-- The resolved connection configuration, mirroring the Go struct field
for field.  `Expiry` and `Timeout` are Go time.Duration values, i.e.
int64 counts of nanoseconds. -/
structure redisSetting where
  Server : String
  Password : String
  Database : String
  Expiry : Int
  Idle : Int
  Active : Int
  Timeout : Int
deriving DecidableEq

/-- Go time.Second as a duration count of nanoseconds. -/
def timeSecond : Int := 1000000000

/-- The driver connection object; `client = false` models a nil pool
pointer (Open never ran), `client = true` a constructed pool.  The unused
mutex and actives fields of the source are vestigial and not modelled. -/
structure redisConnect where
  setting : redisSetting
  client : Bool

/-- Settings resolution performed by driver.Connect.  `settingBag` models
the instance settings map; `parseDuration` models the external
util.ParseDuration helper (not part of this repository), kept abstract.
Go returns (connect, nil): there is no error path. -/
def Connect (parseDuration : String → Option Int)
    (settingBag : String → Option GoVal) : redisConnect :=
  let s0 : redisSetting :=
    { Server := "127.0.0.1:6379", Password := "", Database := "",
      Expiry := 0, Idle := 30, Active := 100, Timeout := 240 }
  let s1 := match settingBag "server" with
    | some (GoVal.str vv) => if vv ≠ "" then { s0 with Server := vv } else s0
    | _ => s0
  let s2 := match settingBag "password" with
    | some (GoVal.str vv) => if vv ≠ "" then { s1 with Password := vv } else s1
    | _ => s1
  let s3 := match settingBag "database" with
    | some (GoVal.str v) => { s2 with Database := v }
    | _ => s2
  let s4 := match settingBag "idle" with
    | some (GoVal.int vv) => if vv > 0 then { s3 with Idle := vv } else s3
    | _ => s3
  let s5 := match settingBag "active" with
    | some (GoVal.int vv) => if vv > 0 then { s4 with Active := vv } else s4
    | _ => s4
  let s6 := match settingBag "timeout" with
    | some (GoVal.int vv) => if vv > 0 then { s5 with Timeout := timeSecond * vv } else s5
    | _ => s5
  let s7 := match settingBag "timeout" with
    | some (GoVal.str vv) =>
      if vv ≠ "" then
        match parseDuration vv with
        | some td => { s6 with Timeout := td }
        | none => s6
      else s6
    | _ => s6
  { setting := s7, client := false }

/-- The error values an operation can return: the two package sentinel
errors, an opaque backend command error, and a base64 decode error. -/
inductive GoErr where
  | invalidConnection
  | emptyData
  | backendErr (msg : String)
  | corruptInput
deriving DecidableEq

/-- Wire commands issued to the backend.  In `set`, `ex` holds the raw
duration passed with the EX qualifier (the wire value is its count of
seconds); `none` means the SET carries no expiration qualifier. -/
inductive Cmd where
  | get (key : String)
  | set (key : String) (value : List Nat) (ex : Option Int)
  | del (key : String)
  | existsKey (key : String)
  | keysCmd (pat : String)
  | expire (key : String) (seconds : Int)
deriving DecidableEq

deriving instance DecidableEq for Except

/-- The external Redis backend: its key-value data plus oracles supplying
the failures an external server may produce (GET/SET/DEL command errors
per key, and the KEYS reply per pattern). -/
structure Backend where
  store : String → Option (List Nat)
  getErr : String → Option String
  setErr : String → Option String
  delErr : String → Option String
  keysReply : String → Except String (List String)

def storeSet (st : String → Option (List Nat)) (key : String) (v : List Nat) :
    String → Option (List Nat) :=
  fun k => if k = key then some v else st k

def storeErase (st : String → Option (List Nat)) (key : String) :
    String → Option (List Nat) :=
  fun k => if k = key then none else st k

def storeEraseAll : (String → Option (List Nat)) → List String → (String → Option (List Nat))
  | st, [] => st
  | st, k :: rest => storeEraseAll (storeErase st k) rest

/-- Pool construction (Open).  Dialing, AUTH, SELECT and the fail-fast
probe connection are network I/O against the external server; the
driver-visible outcome of a successful Open is a non-nil pool. -/
def redisConnect.Open (c : redisConnect) : redisConnect := { c with client := true }

/-- EXISTS: count of present keys compared against zero.  Backend EXISTS
failures are not needed by any claim and the reply is modelled from the
store directly. -/
def redisConnect.Exists (c : redisConnect) (bk : Backend) (key : String) :
    Except GoErr Bool × Backend × List Cmd :=
  if c.client = false then (Except.error GoErr.invalidConnection, bk, [])
  else
    let cnt : Nat := match bk.store key with
      | some _ => 1
      | none => 0
    if cnt > 0 then (Except.ok true, bk, [Cmd.existsKey key])
    else (Except.ok false, bk, [Cmd.existsKey key])

/-- GET then base64 decode.  An absent key makes redis.String yield the
empty string together with redis.ErrNil, which the source filters out, so
both an absent key and a stored empty string fall into the
`value == ""` branch and return (nil, nil), modelled as `ok none`. -/
def redisConnect.Read (c : redisConnect) (bk : Backend) (key : String) :
    Except GoErr (Option (List Nat)) × Backend × List Cmd :=
  if c.client = false then (Except.error GoErr.invalidConnection, bk, [])
  else
    match bk.getErr key with
    | some msg => (Except.error (GoErr.backendErr msg), bk, [Cmd.get key])
    | none =>
      match bk.store key with
      | none => (Except.ok none, bk, [Cmd.get key])
      | some value =>
        if value = [] then (Except.ok none, bk, [Cmd.get key])
        else
          match b64Decode value with
          | some bs => (Except.ok (some bs), bk, [Cmd.get key])
          | none => (Except.error GoErr.corruptInput, bk, [Cmd.get key])

/-- Base64 encode, reject an empty encoded value before any backend call,
then a single SET carrying the EX qualifier exactly when expiry > 0. -/
def redisConnect.Write (c : redisConnect) (bk : Backend) (key : String)
    (data : List Nat) (expiry : Int) :
    Except GoErr Unit × Backend × List Cmd :=
  if c.client = false then (Except.error GoErr.invalidConnection, bk, [])
  else
    let value := b64Encode data
    if value = [] then (Except.error GoErr.emptyData, bk, [])
    else
      let exArg : Option Int := if expiry > 0 then some expiry else none
      match bk.setErr key with
      | some msg => (Except.error (GoErr.backendErr msg), bk, [Cmd.set key value exArg])
      | none => (Except.ok (), { bk with store := storeSet bk.store key value },
                 [Cmd.set key value exArg])

/-- DEL of a single key; absence of the key is not an error. -/
def redisConnect.Delete (c : redisConnect) (bk : Backend) (key : String) :
    Except GoErr Unit × Backend × List Cmd :=
  if c.client = false then (Except.error GoErr.invalidConnection, bk, [])
  else
    match bk.delErr key with
    | some msg => (Except.error (GoErr.backendErr msg), bk, [Cmd.del key])
    | none => (Except.ok (), { bk with store := storeErase bk.store key }, [Cmd.del key])

/-- KEYS with the glob pattern prefix ++ "*".  The source discards the
scan error (`alls, _ := redis.Strings(...)`), in which case the reply
slice is nil and the append loop leaves the result empty. -/
def redisConnect.Keys (c : redisConnect) (bk : Backend) (pfx : String) :
    Except GoErr (List String) × Backend × List Cmd :=
  if c.client = false then (Except.error GoErr.invalidConnection, bk, [])
  else
    let pat := pfx ++ "*"
    let alls := match bk.keysReply pat with
      | Except.error _ => []
      | Except.ok l => l
    (Except.ok (List.foldl (fun acc k => acc ++ [k]) [] alls), bk, [Cmd.keysCmd pat])

/-- The per-key DEL loop of Clear: stops at the first failing delete and
propagates its error; earlier deletions remain applied. -/
def clearLoop : Backend → List String → Except GoErr Unit × Backend × List Cmd
  | bk, [] => (Except.ok (), bk, [])
  | bk, k :: rest =>
    match bk.delErr k with
    | some msg => (Except.error (GoErr.backendErr msg), bk, [Cmd.del k])
    | none =>
      let res := clearLoop { bk with store := storeErase bk.store k } rest
      (res.1, res.2.1, Cmd.del k :: res.2.2)

/-- Keys(prefix) followed by one DEL per returned key. -/
def redisConnect.Clear (c : redisConnect) (bk : Backend) (pfx : String) :
    Except GoErr Unit × Backend × List Cmd :=
  if c.client = false then (Except.error GoErr.invalidConnection, bk, [])
  else
    let r1 := c.Keys bk pfx
    match r1.1 with
    | Except.error e => (Except.error e, r1.2.1, r1.2.2)
    | Except.ok ks =>
      let r2 := clearLoop r1.2.1 ks
      (r2.1, r2.2.1, r1.2.2 ++ r2.2.2)

/-- Read, seed at `start` unless the stored value parses as a base-10
int64, add `step` (with int64 wrap-around), write the decimal form back
with the given expiry, and return the new value. -/
def redisConnect.Sequence (c : redisConnect) (bk : Backend) (key : String)
    (start step : Int) (expiry : Int) :
    Except GoErr Int × Backend × List Cmd :=
  if c.client = false then (Except.error GoErr.invalidConnection, bk, [])
  else
    let r1 := c.Read bk key
    let value :=
      match r1.1 with
      | Except.ok data =>
        match parseInt64 (data.getD []) with
        | some num => num
        | none => start
      | Except.error _ => start
    let value2 := wrap64 (value + step)
    let r2 := c.Write r1.2.1 key (intToBytes value2) expiry
    match r2.1 with
    | Except.error e => (Except.error e, r2.2.1, r1.2.2 ++ r2.2.2)
    | Except.ok _ => (Except.ok value2, r2.2.1, r1.2.2 ++ r2.2.2)

/-- Characterization of the Read result as a function of the stored
value, proved equal to `Read` on an open pool with no GET failure. -/
def readResultModel (stored : Option (List Nat)) : Except GoErr (Option (List Nat)) :=
  match stored with
  | none => Except.ok none
  | some v =>
    if v = [] then Except.ok none
    else match b64Decode v with
      | some bs => Except.ok (some bs)
      | none => Except.error GoErr.corruptInput

/-- The value Sequence holds right before adding `step`, as a function of
the result of its inner Read. -/
def seqReadValue (r : Except GoErr (Option (List Nat))) (start : Int) : Int :=
  match r with
  | Except.ok data =>
    match parseInt64 (data.getD []) with
    | some num => num
    | none => start
  | Except.error _ => start

/-- The seed of Sequence as a function of the raw stored backend value:
`start` when the key is absent, undecodable or not a decimal integer, and
the stored counter otherwise. -/
def seqSeed (stored : Option (List Nat)) (start : Int) : Int :=
  match stored with
  | none => start
  | some v =>
    match b64Decode v with
    | some bs => (parseInt64 bs).getD start
    | none => start

/- Concrete fixtures used by the witnesses. -/

def defaultSetting : redisSetting :=
  { Server := "127.0.0.1:6379", Password := "", Database := "",
    Expiry := 0, Idle := 30, Active := 100, Timeout := 240 }

def openConn : redisConnect := { setting := defaultSetting, client := true }

def closedConn : redisConnect := { setting := defaultSetting, client := false }

def bkEmpty : Backend :=
  { store := fun _ => none, getErr := fun _ => none, setErr := fun _ => none,
    delErr := fun _ => none, keysReply := fun _ => Except.ok [] }

def bkScanFail : Backend :=
  { bkEmpty with keysReply := fun _ => Except.error "scan failed" }

def bkBadStored : Backend :=
  { bkEmpty with store := fun k => if k = "k" then some [33] else none }

def bkClear : Backend :=
  { store := fun k => if k = "a" ∨ k = "b" ∨ k = "c" then some [49] else none,
    getErr := fun _ => none, setErr := fun _ => none,
    delErr := fun k => if k = "b" then some "boom" else none,
    keysReply := fun p => if p = "u*" then Except.ok ["a", "b", "c"] else Except.ok [] }

/- Helper lemmas. -/

theorem foldl_append_id (l : List String) : ∀ acc : List String,
    List.foldl (fun a k => a ++ [k]) acc l = acc ++ l := by
  induction l with
  | nil => intro acc; simp
  | cons x xs ih => intro acc; simp [List.foldl, ih]

theorem b64Encode_ne_nil {d : List Nat} (hd : d ≠ []) : b64Encode d ≠ [] := by
  match d with
  | [] => exact absurd rfl hd
  | [a] => simp [b64Encode]
  | [a, b] => simp [b64Encode]
  | a :: b :: c :: rest => simp [b64Encode]

theorem natDigits_ne_nil {n : Nat} (h : n ≠ 0) : natDigits n ≠ [] := by
  match n with
  | 0 => exact absurd rfl h
  | m + 1 => simp [natDigits, natDigitsCore]

theorem intToBytes_ne_nil (v : Int) : intToBytes v ≠ [] := by
  unfold intToBytes
  by_cases hneg : v < 0
  · simp [hneg]
  · by_cases hz : v = 0
    · simp [hneg, hz]
    · have : v.natAbs ≠ 0 := by
        intro hab
        exact hz (Int.natAbs_eq_zero.mp hab)
      simp [hneg, hz, natDigits_ne_nil this]

theorem read_characterization (c : redisConnect) (bk : Backend) (key : String)
    (hopen : c.client = true) (hget : bk.getErr key = none) :
    c.Read bk key = (readResultModel (bk.store key), bk, [Cmd.get key]) := by
  unfold redisConnect.Read readResultModel
  rw [hopen, hget]
  cases hs : bk.store key with
  | none => simp
  | some v =>
    by_cases hv : v = []
    · simp [hv]
    · cases hd : b64Decode v <;> simp [hv, hd]

theorem read_state_trace (c : redisConnect) (bk : Backend) (key : String)
    (hopen : c.client = true) :
    (c.Read bk key).2.1 = bk ∧ (c.Read bk key).2.2 = [Cmd.get key] := by
  unfold redisConnect.Read
  rw [hopen]
  cases hg : bk.getErr key with
  | some msg => simp
  | none =>
    cases hs : bk.store key with
    | none => simp
    | some v =>
      by_cases hv : v = []
      · simp [hv]
      · cases hd : b64Decode v <;> simp [hv, hd]

theorem write_ok (c : redisConnect) (bk : Backend) (key : String)
    (data : List Nat) (expiry : Int) (hopen : c.client = true)
    (hd : data ≠ []) (hset : bk.setErr key = none) :
    c.Write bk key data expiry =
      (Except.ok (), { bk with store := storeSet bk.store key (b64Encode data) },
       [Cmd.set key (b64Encode data) (if expiry > 0 then some expiry else none)]) := by
  unfold redisConnect.Write
  rw [hopen, hset]
  simp [b64Encode_ne_nil hd]

theorem sequence_run (c : redisConnect) (bk : Backend) (key : String)
    (start step expiry : Int) (r : Except GoErr (Option (List Nat)))
    (hopen : c.client = true)
    (hread : c.Read bk key = (r, bk, [Cmd.get key]))
    (hset : bk.setErr key = none) :
    c.Sequence bk key start step expiry =
      (Except.ok (wrap64 (seqReadValue r start + step)),
       { bk with store := storeSet bk.store key (b64Encode (intToBytes (wrap64 (seqReadValue r start + step)))) },
       [Cmd.get key,
        Cmd.set key (b64Encode (intToBytes (wrap64 (seqReadValue r start + step))))
          (if expiry > 0 then some expiry else none)]) := by
  unfold redisConnect.Sequence
  rw [hopen]
  simp only [Bool.true_eq_false, if_false, hread]
  rw [write_ok c bk key _ expiry hopen (intToBytes_ne_nil _) hset]
  simp [seqReadValue]

theorem seqReadValue_model (st : Option (List Nat)) (start : Int) :
    seqReadValue (readResultModel st) start = seqSeed st start := by
  cases st with
  | none => rfl
  | some v =>
    by_cases hv : v = []
    · subst hv; rfl
    · simp only [readResultModel, seqSeed, if_neg hv]
      cases hd : b64Decode v with
      | none => rfl
      | some bs =>
        simp only [seqReadValue, Option.getD_some]
        cases hp : parseInt64 bs <;> simp [hp]

theorem clearLoop_fail (k m : String) (ks2 : List String) :
    ∀ (ks1 : List String) (bk : Backend), (∀ x ∈ ks1, bk.delErr x = none) →
      bk.delErr k = some m →
      clearLoop bk (ks1 ++ k :: ks2) =
        (Except.error (GoErr.backendErr m),
         { bk with store := storeEraseAll bk.store ks1 },
         ks1.map Cmd.del ++ [Cmd.del k])
  | [], bk, _, hk => by
    simp [clearLoop, hk, storeEraseAll]
  | x :: ks1, bk, h1, hk => by
    have hx : bk.delErr x = none := h1 x (by simp)
    have ih := clearLoop_fail k m ks2 ks1 { bk with store := storeErase bk.store x }
      (fun y hy => h1 y (by simp [hy])) hk
    simp only [List.cons_append, clearLoop, hx, List.append_eq]
    rw [ih]
    simp [storeEraseAll]

/- Claim theorems and their witnesses. -/

/-- C1: decoding the wire encoding used by Write recovers every byte
sequence exactly: decode(encode(b)) = b. -/
theorem decode_encode_roundtrip (l : List Nat) (h : ∀ x ∈ l, x < 256) :
    b64Decode (b64Encode l) = some l :=
  b64_decode_encode l h

/-- Witness for C1 at the concrete byte sequence [104, 105]. -/
theorem decode_encode_roundtrip_witness :
    (∀ x ∈ ([104, 105] : List Nat), x < 256) ∧
    b64Decode (b64Encode [104, 105]) = some [104, 105] :=
  ⟨by decide, decode_encode_roundtrip [104, 105] (by decide)⟩

/-- C2: on an open store, writing a zero-length payload fails with the
empty-data error before any backend command, leaving the backend
unchanged. -/
theorem write_empty_rejected (c : redisConnect) (bk : Backend) (key : String)
    (ttl : Int) (hopen : c.client = true) :
    c.Write bk key [] ttl = (Except.error GoErr.emptyData, bk, []) := by
  unfold redisConnect.Write
  rw [hopen]
  simp [b64Encode]

/-- Witness for C2 on the empty backend. -/
theorem write_empty_rejected_witness :
    openConn.client = true ∧
    openConn.Write bkEmpty "k" [] 7 = (Except.error GoErr.emptyData, bkEmpty, []) :=
  ⟨rfl, write_empty_rejected openConn bkEmpty "k" 7 rfl⟩

/-- C3: on an open store, Read maps an absent key to absent with no
error, maps a stored empty value to absent with no error, returns the
decoded bytes of any other stored value, and propagates a decode failure
as an error. -/
theorem read_absent_empty_decode (c : redisConnect) (bk : Backend) (key : String)
    (hopen : c.client = true) (hget : bk.getErr key = none) :
    (bk.store key = none → (c.Read bk key).1 = Except.ok none) ∧
    (bk.store key = some [] → (c.Read bk key).1 = Except.ok none) ∧
    (∀ v bs, bk.store key = some v → v ≠ [] → b64Decode v = some bs →
      (c.Read bk key).1 = Except.ok (some bs)) ∧
    (∀ v, bk.store key = some v → b64Decode v = none →
      (c.Read bk key).1 = Except.error GoErr.corruptInput) := by
  have hr := read_characterization c bk key hopen hget
  refine ⟨fun h => ?_, fun h => ?_, fun v bs h hne hdec => ?_, fun v h hdec => ?_⟩ <;>
    rw [hr]
  · simp [readResultModel, h]
  · simp [readResultModel, h]
  · simp [readResultModel, h, hne, hdec]
  · by_cases hne : v = []
    · subst hne
      rw [show b64Decode ([] : List Nat) = some [] from rfl] at hdec
      cases hdec
    · simp [readResultModel, h, hne, hdec]

/-- Witness for C3: reading a never-written key of the empty backend is
absent with no error. -/
theorem read_absent_empty_decode_witness :
    openConn.client = true ∧ bkEmpty.getErr "k" = none ∧
    (openConn.Read bkEmpty "k").1 = Except.ok none :=
  ⟨rfl, rfl, (read_absent_empty_decode openConn bkEmpty "k" rfl rfl).1 rfl⟩

/-- C4: on an open store (with the GET and SET commands succeeding),
Sequence seeds at start when the stored value is absent or not a decimal
integer, otherwise continues from it; it adds step, writes the stringified
new value back with the given ttl, and returns the new value. -/
theorem sequence_spec (c : redisConnect) (bk : Backend) (key : String)
    (start step ttl : Int) (hopen : c.client = true)
    (hget : bk.getErr key = none) (hset : bk.setErr key = none) :
    c.Sequence bk key start step ttl =
      (Except.ok (wrap64 (seqSeed (bk.store key) start + step)),
       { bk with store := storeSet bk.store key (b64Encode (intToBytes (wrap64 (seqSeed (bk.store key) start + step)))) },
       [Cmd.get key,
        Cmd.set key (b64Encode (intToBytes (wrap64 (seqSeed (bk.store key) start + step))))
          (if ttl > 0 then some ttl else none)]) := by
  have hr := read_characterization c bk key hopen hget
  have h := sequence_run c bk key start step ttl (readResultModel (bk.store key)) hopen hr hset
  rw [seqReadValue_model] at h
  exact h

/-- Witness for C4: on a fresh key, Sequence("k", 5, 1, 0) returns 6 and
an identical second call returns 7. -/
theorem sequence_spec_witness :
    (openConn.Sequence bkEmpty "k" 5 1 0).1 = Except.ok 6 ∧
    (openConn.Sequence (openConn.Sequence bkEmpty "k" 5 1 0).2.1 "k" 5 1 0).1 = Except.ok 7 := by
  constructor
  · rw [sequence_spec openConn bkEmpty "k" 5 1 0 rfl rfl rfl]
    decide
  · decide

/-- C5: on an open store with non-empty data, Write issues exactly one
SET; the SET carries the expiration qualifier precisely when ttl > 0, and
no separate EXPIRE command is ever issued. -/
theorem write_single_set (c : redisConnect) (bk : Backend) (key : String)
    (data : List Nat) (ttl : Int) (hopen : c.client = true) (hd : data ≠ []) :
    (c.Write bk key data ttl).2.2 =
      [Cmd.set key (b64Encode data) (if ttl > 0 then some ttl else none)] ∧
    ∀ k s, Cmd.expire k s ∉ (c.Write bk key data ttl).2.2 := by
  have htr : (c.Write bk key data ttl).2.2 =
      [Cmd.set key (b64Encode data) (if ttl > 0 then some ttl else none)] := by
    unfold redisConnect.Write
    rw [hopen]
    cases hs : bk.setErr key <;> simp [b64Encode_ne_nil hd, hs]
  exact ⟨htr, fun k s => by rw [htr]; simp⟩

/-- Witness for C5 at data [1] and ttl 5. -/
theorem write_single_set_witness :
    (openConn.Write bkEmpty "k" [1] 5).2.2 =
      [Cmd.set "k" (b64Encode [1]) (if (5 : Int) > 0 then some 5 else none)] :=
  (write_single_set openConn bkEmpty "k" [1] 5 rfl (by decide)).1

/-- C6 (code evaluation): with every option absent, the resolved setting
keeps address 127.0.0.1:6379, idle 30, active 100 and a Timeout of 240 —
but 240 as a Go time.Duration is 240 nanoseconds, not the 240 seconds the
specification states, as the final inequality records. -/
theorem connect_defaults_timeout_ns :
    (Connect (fun _ => none) (fun _ => none)).setting =
      { Server := "127.0.0.1:6379", Password := "", Database := "",
        Expiry := 0, Idle := 30, Active := 100, Timeout := 240 } ∧
    (Connect (fun _ => none) (fun _ => none)).setting.Timeout ≠ 240 * timeSecond := by
  exact ⟨rfl, by decide⟩

/-- C7: with a nil pool, every operation returns the
connection-unavailable error immediately, issues no backend command, and
leaves the backend state unchanged. -/
theorem nil_pool_rejects (c : redisConnect) (bk : Backend) (key pfx : String)
    (data : List Nat) (start step ttl : Int) (hc : c.client = false) :
    c.Exists bk key = (Except.error GoErr.invalidConnection, bk, []) ∧
    c.Read bk key = (Except.error GoErr.invalidConnection, bk, []) ∧
    c.Write bk key data ttl = (Except.error GoErr.invalidConnection, bk, []) ∧
    c.Delete bk key = (Except.error GoErr.invalidConnection, bk, []) ∧
    c.Clear bk pfx = (Except.error GoErr.invalidConnection, bk, []) ∧
    c.Keys bk pfx = (Except.error GoErr.invalidConnection, bk, []) ∧
    c.Sequence bk key start step ttl = (Except.error GoErr.invalidConnection, bk, []) := by
  refine ⟨?_, ?_, ?_, ?_, ?_, ?_, ?_⟩ <;>
    simp [redisConnect.Exists, redisConnect.Read, redisConnect.Write,
          redisConnect.Delete, redisConnect.Clear, redisConnect.Keys,
          redisConnect.Sequence, hc]

/-- Witness for C7: the handle returned by Connect, on which Open never
ran, rejects Read. -/
theorem nil_pool_rejects_witness :
    closedConn.client = false ∧
    closedConn.Read bkEmpty "k" = (Except.error GoErr.invalidConnection, bkEmpty, []) :=
  ⟨rfl, (nil_pool_rejects closedConn bkEmpty "k" "p" [1] 0 1 0 rfl).2.1⟩

/-- C8: Clear enumerates the keys with KEYS prefix ++ "*" and deletes
them one by one in order; the first failing delete aborts the remaining
deletions and propagates its error, while the deletions already performed
stay applied. -/
theorem clear_partial_failure (c : redisConnect) (bk : Backend) (pfx k m : String)
    (ks1 ks2 : List String) (hopen : c.client = true)
    (hkeys : bk.keysReply (pfx ++ "*") = Except.ok (ks1 ++ k :: ks2))
    (h1 : ∀ x ∈ ks1, bk.delErr x = none) (hk : bk.delErr k = some m) :
    c.Clear bk pfx =
      (Except.error (GoErr.backendErr m),
       { bk with store := storeEraseAll bk.store ks1 },
       Cmd.keysCmd (pfx ++ "*") :: (ks1.map Cmd.del ++ [Cmd.del k])) := by
  have hK : c.Keys bk pfx = (Except.ok (ks1 ++ k :: ks2), bk, [Cmd.keysCmd (pfx ++ "*")]) := by
    unfold redisConnect.Keys
    rw [hopen]
    simp [hkeys, foldl_append_id]
  unfold redisConnect.Clear
  rw [hopen]
  simp only [Bool.true_eq_false, if_false, hK]
  rw [clearLoop_fail k m ks2 ks1 bk h1 hk]
  simp

/-- Witness for C8: clearing prefix u on a backend whose scan returns
[a, b, c] and whose DEL of b fails removes a, stops at b, and leaves c. -/
theorem clear_partial_failure_witness :
    openConn.client = true ∧ bkClear.delErr "b" = some "boom" ∧
    openConn.Clear bkClear "u" =
      (Except.error (GoErr.backendErr "boom"),
       { bkClear with store := storeEraseAll bkClear.store ["a"] },
       Cmd.keysCmd ("u" ++ "*") :: (List.map Cmd.del ["a"] ++ [Cmd.del "b"])) :=
  ⟨rfl, by decide,
   clear_partial_failure openConn bkClear "u" "b" "boom" ["a"] ["c"] rfl (by decide)
     (by decide) (by decide)⟩

/-- C9: Keys queries the backend with the glob pattern prefix ++ "*" and
never surfaces a scan error: a failing scan yields the empty list with no
error, and the backend state is unchanged. -/
theorem keys_swallow_scan_errors (c : redisConnect) (bk : Backend) (pfx : String)
    (hopen : c.client = true) :
    (c.Keys bk pfx).1 =
      Except.ok (match bk.keysReply (pfx ++ "*") with
        | Except.ok l => l
        | Except.error _ => []) ∧
    (c.Keys bk pfx).2.2 = [Cmd.keysCmd (pfx ++ "*")] ∧
    (c.Keys bk pfx).2.1 = bk := by
  unfold redisConnect.Keys
  rw [hopen]
  cases hr : bk.keysReply (pfx ++ "*") <;> simp [hr, foldl_append_id]

/-- Witness for C9 on a backend whose scan always fails. -/
theorem keys_swallow_scan_errors_witness :
    openConn.client = true ∧
    (openConn.Keys bkScanFail "p").1 = Except.ok [] :=
  ⟨rfl, (keys_swallow_scan_errors openConn bkScanFail "p" rfl).1⟩

/-- C10: when the inner Read fails (backend or decode error), Sequence
swallows the error and behaves as if the key were absent: it seeds at
start, overwrites the stored value with start + step, and returns
start + step with no error, provided the subsequent Write succeeds. -/
theorem sequence_ignores_read_error (c : redisConnect) (bk : Backend) (key : String)
    (start step ttl : Int) (e : GoErr) (hopen : c.client = true)
    (hfail : (c.Read bk key).1 = Except.error e) (hset : bk.setErr key = none) :
    c.Sequence bk key start step ttl =
      (Except.ok (wrap64 (start + step)),
       { bk with store := storeSet bk.store key (b64Encode (intToBytes (wrap64 (start + step)))) },
       [Cmd.get key,
        Cmd.set key (b64Encode (intToBytes (wrap64 (start + step))))
          (if ttl > 0 then some ttl else none)]) := by
  have hst := read_state_trace c bk key hopen
  have hread : c.Read bk key = (Except.error e, bk, [Cmd.get key]) := by
    have heta : c.Read bk key =
        ((c.Read bk key).1, (c.Read bk key).2.1, (c.Read bk key).2.2) := rfl
    rw [heta, hfail, hst.1, hst.2]
  exact sequence_run c bk key start step ttl (Except.error e) hopen hread hset

/-- Witness for C10 on a backend storing a value that is not valid
base64 under key k: Sequence(k, 10, 2, 0) returns 12. -/
theorem sequence_ignores_read_error_witness :
    (openConn.Read bkBadStored "k").1 = Except.error GoErr.corruptInput ∧
    (openConn.Sequence bkBadStored "k" 10 2 0).1 = Except.ok 12 := by
  constructor
  · decide
  · rw [sequence_ignores_read_error openConn bkBadStored "k" 10 2 0 GoErr.corruptInput rfl
        (by decide) rfl]
    decide

end SessionRedis
